import Mathlib

/-!
Verification of the background `/proc` reader of `probe/endpoint/procspy`
(`background_reader_linux.go`).

Modelling conventions:

* Durations (`time.Duration`, nanosecond counts) are modelled as exact
  rationals (`ℚ`) of nanoseconds.  The source's `float64` arithmetic in the
  rate-limit feedback law is modelled exactly over `ℚ`, except for the IEEE
  non-finite values, which are modelled explicitly by the type `FVal`
  below (division of a positive constant by zero yields `+∞`, and Go's
  `math.Min(+∞, m) = m`).  The final `time.Duration(...)` conversion's
  sub-nanosecond truncation is not modelled.
* `bytes.Buffer` values are modelled by their byte contents, `List Nat`
  (the reader only ever appends to and resets these buffers, and reads
  them through `Bytes()`, so the contents determine all observed behaviour).
* The socket table `map[uint64]*Proc` produced by the external walker is
  treated as an opaque type parameter `M`; a Go `nil` map reference is
  `Option.none`.  The external function `walkProcPid` (outside this file's
  source) appears only through its interface: it appends serialized bytes
  to the walking buffer and either fails or returns a fresh mapping; in the
  transition system it is a nondeterministic step.
* The concurrency of the scan-loop goroutine and consumers is modelled by a
  labelled transition system `Step` on configurations.  Code regions
  executed while holding `br.mtx` (all of `start`, `stop`,
  `getWalkedProcPid`, and the stop-check/buffer-swap block of `loop`) are
  single atomic transitions; the unlocked parts of the loop (the walk, the
  rate-limit adjustment and the buffer reset) are separate transitions.
-/

/-- `time.Millisecond` in nanoseconds, as an exact rational. -/
def millisecondQ : ℚ := 1000000

/-- `time.Second` in nanoseconds, as an exact rational. -/
def secondQ : ℚ := 1000000000

/-- `initialRateLimitPeriod = 50 * time.Millisecond`. -/
def initialRateLimitPeriodQ : ℚ := 50 * millisecondQ

/-- `maxRateLimitPeriod = 250 * time.Millisecond`. -/
def maxRateLimitPeriodQ : ℚ := 250 * millisecondQ

/-- `fdBlockSize = uint64(300)` (not used by the modelled control flow, the
walker consumes it). -/
def fdBlockSize : Nat := 300

/-- `targetWalkTime = 10 * time.Second`. -/
def targetWalkTimeQ : ℚ := 10 * secondQ

/-! ### A minimal model of the `float64` values arising in the feedback law

The loop computes
`scaledRateLimitPeriod := targetWalkTimeF / walkTimeF * float64(rateLimitPeriod)`
and `rateLimitPeriod = time.Duration(math.Min(scaledRateLimitPeriod, maxRateLimitPeriodF))`.
All quantities are nonnegative; the only IEEE subtlety is division by a zero
`walkTimeF`, which produces `+∞` (or NaN when the numerator is also zero),
and Go's `math.Min`, which maps `(+∞, m)` to `m` and propagates NaN. -/

/-- A `float64` value: NaN, one of the two infinities, or a finite value
(finite values are modelled as exact rationals). -/
inductive FVal : Type
  | nan : FVal
  | posInf : FVal
  | negInf : FVal
  | fin : ℚ → FVal
deriving DecidableEq

/-- IEEE division of two finite values: `a / 0` is `±∞` for `a ≠ 0` and NaN
for `a = 0`; otherwise exact. -/
def fdiv (a b : ℚ) : FVal :=
  if b = 0 then
    if a = 0 then .nan else if 0 < a then .posInf else .negInf
  else .fin (a / b)

/-- IEEE multiplication of a value by a finite value `c`:
`±∞ * 0` is NaN, `±∞ * c` follows the sign of `c`, finite values multiply
exactly. -/
def fmulFin : FVal → ℚ → FVal
  | .nan, _ => .nan
  | .posInf, c => if c = 0 then .nan else if 0 < c then .posInf else .negInf
  | .negInf, c => if c = 0 then .nan else if 0 < c then .negInf else .posInf
  | .fin q, c => .fin (q * c)

/-- Go `math.Min(x, m)` for a finite second argument `m`: propagates NaN,
maps `+∞` to `m`, keeps `-∞`, and takes the minimum of finite values. -/
def goMathMin : FVal → ℚ → FVal
  | .nan, _ => .nan
  | .posInf, m => .fin m
  | .negInf, _ => .negInf
  | .fin q, m => .fin (min q m)

/-- `scaledRateLimitPeriod := targetWalkTimeF / walkTimeF * float64(rateLimitPeriod)`
(line 110 of the source), over the float model. -/
def scaledRateLimitPeriod (target elapsed current : ℚ) : FVal :=
  fmulFin (fdiv target elapsed) current

/-- `math.Min(scaledRateLimitPeriod, maxRateLimitPeriodF)` (line 111), over
the float model, parameterized by the target and maximum constants. -/
def nextRateLimitPeriodF (target maxPeriod current elapsed : ℚ) : FVal :=
  goMathMin (scaledRateLimitPeriod target elapsed current) maxPeriod

/-- The value of the feedback law as an exact rational, for the parameter
region actually reached by the loop (`0 < target`, `0 < current`,
`0 ≤ elapsed`), where `nextRateLimitPeriodF` is finite: for `elapsed = 0`
the scaled period is `+∞` and `math.Min` returns the maximum; otherwise it
is `min (target / elapsed * current) maxPeriod`. -/
def nextRateLimitPeriodGen (target maxPeriod current elapsed : ℚ) : ℚ :=
  if elapsed = 0 then maxPeriod
  else min (target / elapsed * current) maxPeriod

/-- The feedback law with the source's constants
(`targetWalkTime = 10s`, `maxRateLimitPeriod = 250ms`). -/
def nextRateLimitPeriod (current elapsed : ℚ) : ℚ :=
  nextRateLimitPeriodGen targetWalkTimeQ maxRateLimitPeriodQ current elapsed

/-- The warning predicate of lines 104-109: `walkTimeF/targetWalkTimeF > 1.5`. -/
def passOverrunWarning (elapsed target : ℚ) : Bool :=
  decide ((3 / 2 : ℚ) < elapsed / target)

/-- On the reached parameter region the float-model feedback law is finite
and agrees with the rational shadow `nextRateLimitPeriodGen`. -/
theorem nextRateLimitPeriodF_eq_fin (target maxPeriod current elapsed : ℚ)
    (ht : 0 < target) (hc : 0 < current) (he : 0 ≤ elapsed) :
    nextRateLimitPeriodF target maxPeriod current elapsed =
      .fin (nextRateLimitPeriodGen target maxPeriod current elapsed) := by
  unfold nextRateLimitPeriodF scaledRateLimitPeriod fdiv fmulFin goMathMin
    nextRateLimitPeriodGen
  rcases eq_or_lt_of_le he with h0 | hpos
  · simp [← h0, ht.ne.symm, ht, hc.ne.symm, hc]
  · simp [hpos.ne.symm]

/-! ### The background reader state and its lifecycle operations -/

/-- The fields of `backgroundReader` (minus the external `walker`
collaborator and the mutex, which is modelled by the atomicity of
transitions): lifecycle flags, the two buffers, and the published mapping.
`M` is the opaque type of a pass's socket mapping; `readySockets` is `none`
while it is still the Go zero value `nil`. -/
structure BackgroundReader (M : Type) : Type where
  running : Bool
  pleaseStop : Bool
  walkingBuf : List Nat
  readyBuf : List Nat
  readySockets : Option M
deriving DecidableEq

/-- `newBackgroundReader`: zero-valued flags and mapping, two preallocated
empty buffers. -/
def newBackgroundReader (M : Type) : BackgroundReader M :=
  { running := false
    pleaseStop := false
    walkingBuf := []
    readyBuf := []
    readySockets := none }

/-- The error of `start` when already running. -/
def alreadyRunningMsg : String := "background reader already running"

/-- The error of `stop` when not running. -/
def notRunningMsg : String := "background reader already not running"

/-- `start`: under the lock, fail if running, else set `running` (the spawn
of the loop goroutine itself is the `Step.startOk` transition below).
Returns the Go error result paired with the updated receiver. -/
def start {M : Type} (br : BackgroundReader M) :
    Except String Unit × BackgroundReader M :=
  if br.running then (.error alreadyRunningMsg, br)
  else (.ok (), { br with running := true })

/-- `stop`: under the lock, fail if not running, else request a stop. -/
def stop {M : Type} (br : BackgroundReader M) :
    Except String Unit × BackgroundReader M :=
  if br.running then (.ok (), { br with pleaseStop := true })
  else (.error notRunningMsg, br)

/-- `getWalkedProcPid buf`: under the lock, read all of `readyBuf.Bytes()`
into the caller's buffer (net effect: append the ready bytes to `buf`) and
return the published mapping.  The receiver is not modified; the function
returns the new contents of the caller's buffer and the returned mapping. -/
def getWalkedProcPid {M : Type} (br : BackgroundReader M) (buf : List Nat) :
    List Nat × Option M :=
  (buf ++ br.readyBuf, br.readySockets)

/-! ### The loop / consumer transition system -/

/-- The scan-loop goroutine's control point.
`idle`: no loop goroutine is alive (never started, or exited).
`scanning`: at the top of the `for` loop, about to call `walkProcPid`.
`publishing s`: `walkProcPid` returned mapping `s`; about to take the lock
for the stop-check / buffer-swap block.
`resetting`: past the unlock; about to adjust the rate limit, reset the
walking buffer and sleep. -/
inductive PC (M : Type) : Type
  | idle : PC M
  | scanning : PC M
  | publishing : M → PC M
  | resetting : PC M
deriving DecidableEq

/-- A global configuration: the shared `backgroundReader` state, the loop's
control point, and the loop-local `rateLimitPeriod`. -/
structure Config (M : Type) : Type where
  br : BackgroundReader M
  pc : PC M
  period : ℚ
deriving DecidableEq

/-- The initial configuration: a fresh reader, no loop goroutine. -/
def initConfig (M : Type) : Config M :=
  ⟨newBackgroundReader M, .idle, initialRateLimitPeriodQ⟩

/-- Observable transition labels.  `getSnap buf out m` records a consumer
call of `getWalkedProcPid` with prior buffer contents `buf`, resulting
contents `out` and returned mapping `m`.  `publish b m` records the atomic
publication of the pair `(b, m)` by a completed pass.  `walkFail bs` and
`walkOk bs s` record a walker invocation that appended bytes `bs` to the
walking buffer and failed resp. produced mapping `s`.  `adaptReset e`
records the rate-limit adjustment for a measured pass time `e` together
with the walking-buffer reset. -/
inductive Label (M : Type) : Type
  | startOk : Label M
  | startErr : Label M
  | stopOk : Label M
  | stopErr : Label M
  | getSnap : List Nat → List Nat → Option M → Label M
  | walkFail : List Nat → Label M
  | walkOk : List Nat → M → Label M
  | publish : List Nat → M → Label M
  | exitLoop : Label M
  | adaptReset : ℚ → Label M
deriving DecidableEq

/-- One atomic transition of the system.  Lock-protected code blocks are
single transitions; the walker call and the post-publish adjustment are
separate transitions touching only loop-owned state. -/
inductive Step {M : Type} : Config M → Label M → Config M → Prop
  | startOk (c : Config M) (h : c.br.running = false) :
      Step c .startOk
        ⟨{ c.br with running := true }, .scanning, initialRateLimitPeriodQ⟩
  | startErr (c : Config M) (h : c.br.running = true) :
      Step c .startErr c
  | stopOk (c : Config M) (h : c.br.running = true) :
      Step c .stopOk ⟨{ c.br with pleaseStop := true }, c.pc, c.period⟩
  | stopErr (c : Config M) (h : c.br.running = false) :
      Step c .stopErr c
  | getSnap (c : Config M) (buf : List Nat) :
      Step c (.getSnap buf (buf ++ c.br.readyBuf) c.br.readySockets) c
  | walkFail (c : Config M) (bs : List Nat) (h : c.pc = .scanning) :
      Step c (.walkFail bs)
        ⟨{ c.br with walkingBuf := c.br.walkingBuf ++ bs }, .scanning, c.period⟩
  | walkOk (c : Config M) (bs : List Nat) (s : M) (h : c.pc = .scanning) :
      Step c (.walkOk bs s)
        ⟨{ c.br with walkingBuf := c.br.walkingBuf ++ bs }, .publishing s,
          c.period⟩
  | publish (c : Config M) (s : M) (h : c.pc = .publishing s)
      (hstop : c.br.pleaseStop = false) :
      Step c (.publish c.br.walkingBuf s)
        ⟨{ c.br with readyBuf := c.br.walkingBuf
                     walkingBuf := c.br.readyBuf
                     readySockets := some s }, .resetting, c.period⟩
  | exitLoop (c : Config M) (s : M) (h : c.pc = .publishing s)
      (hstop : c.br.pleaseStop = true) :
      Step c .exitLoop
        ⟨{ c.br with pleaseStop := false, running := false }, .idle, c.period⟩
  | adaptReset (c : Config M) (e : ℚ) (h : c.pc = .resetting) (he : 0 ≤ e) :
      Step c (.adaptReset e)
        ⟨{ c.br with walkingBuf := [] }, .scanning,
          nextRateLimitPeriod c.period e⟩

/-- Trace-reachability from the initial configuration; the trace lists the
labels in chronological order. -/
inductive Reach {M : Type} : Config M → List (Label M) → Prop
  | init : Reach (initConfig M) []
  | step {c : Config M} {tr : List (Label M)} {l : Label M} {c' : Config M} :
      Reach c tr → Step c l c' → Reach c' (tr ++ [l])

/-! ### Snapshot-publication history invariant -/

/-- In every reachable configuration the published pair
`(readyBuf, readySockets)` is either still the initial `([], nil)` pair or
exactly the pair recorded by some single `publish` event of the trace. -/
theorem reach_readyPair {M : Type} {c : Config M} {tr : List (Label M)}
    (h : Reach c tr) :
    (c.br.readyBuf = [] ∧ c.br.readySockets = none) ∨
      ∃ s, Label.publish c.br.readyBuf s ∈ tr ∧ c.br.readySockets = some s := by
  induction h with
  | init => exact Or.inl ⟨rfl, rfl⟩
  | step hr hs ih =>
      cases hs with
      | publish s h hstop =>
          exact Or.inr ⟨s, List.mem_append_right _ (List.mem_singleton.mpr rfl),
            rfl⟩
      | startOk h =>
          exact ih.imp id fun ⟨s, hm, hs⟩ => ⟨s, List.mem_append_left _ hm, hs⟩
      | startErr h =>
          exact ih.imp id fun ⟨s, hm, hs⟩ => ⟨s, List.mem_append_left _ hm, hs⟩
      | stopOk h =>
          exact ih.imp id fun ⟨s, hm, hs⟩ => ⟨s, List.mem_append_left _ hm, hs⟩
      | stopErr h =>
          exact ih.imp id fun ⟨s, hm, hs⟩ => ⟨s, List.mem_append_left _ hm, hs⟩
      | getSnap buf =>
          exact ih.imp id fun ⟨s, hm, hs⟩ => ⟨s, List.mem_append_left _ hm, hs⟩
      | walkFail bs h =>
          exact ih.imp id fun ⟨s, hm, hs⟩ => ⟨s, List.mem_append_left _ hm, hs⟩
      | walkOk bs s h =>
          exact ih.imp id fun ⟨s, hm, hs⟩ => ⟨s, List.mem_append_left _ hm, hs⟩
      | exitLoop s h hstop =>
          exact ih.imp id fun ⟨s, hm, hs⟩ => ⟨s, List.mem_append_left _ hm, hs⟩
      | adaptReset e h he =>
          exact ih.imp id fun ⟨s, hm, hs⟩ => ⟨s, List.mem_append_left _ hm, hs⟩

/-- Configuration reached after `start` on a fresh reader (M = Unit). -/
def startedCfgU : Config Unit :=
  ⟨{ newBackgroundReader Unit with running := true }, .scanning,
    initialRateLimitPeriodQ⟩

/-- Configuration after `start`, a successful walk appending `[7]` with
mapping `()`, and publication (M = Unit). -/
def publishedCfgU : Config Unit :=
  ⟨⟨true, false, [], [7], some ()⟩, .resetting, initialRateLimitPeriodQ⟩

/-- The trace leading to `publishedCfgU`. -/
def publishedTraceU : List (Label Unit) :=
  [.startOk, .walkOk [7] (), .publish [7] ()]

/-- `publishedCfgU` is reachable along `publishedTraceU`. -/
theorem reach_publishedCfgU : Reach publishedCfgU publishedTraceU :=
  Reach.step
    (Reach.step (Reach.step Reach.init (Step.startOk _ rfl))
      (Step.walkOk _ [7] () rfl))
    (Step.publish _ () rfl rfl)

/-- C1 (counterexample): the claim "the pair returned by getSnapshot is one
that was atomically published by a single completed pass" fails before the
first pass publishes: after `start` alone, a `getWalkedProcPid` call
observes the pair `([], nil)` although no `publish` event has occurred in
the trace. -/
theorem getSnapshot_initial_not_published :
    Reach startedCfgU [Label.startOk] ∧
      Step startedCfgU (Label.getSnap [] [] none) startedCfgU ∧
      ∀ (b : List Nat) (s : Unit),
        Label.publish b s ∉ ([Label.startOk] : List (Label Unit)) := by
  refine ⟨Reach.step Reach.init (Step.startOk _ rfl), Step.getSnap _ [], ?_⟩
  intro b s hmem
  simp at hmem

/-- C1 (amended): every `getWalkedProcPid` observation appends the ready
bytes to the caller's buffer, and the observed `(bytes, mapping)` pair is
either the initial `([], nil)` snapshot (no completed pass yet) or exactly
the pair atomically published by one single completed pass recorded in the
trace — never a mixture of two passes' data. -/
theorem getSnapshot_pair_published_or_initial {M : Type} {c : Config M}
    {tr : List (Label M)} {buf out : List Nat} {m : Option M} {c' : Config M}
    (hr : Reach c tr) (hs : Step c (Label.getSnap buf out m) c') :
    out = buf ++ c.br.readyBuf ∧
      ((c.br.readyBuf = [] ∧ m = none) ∨
        ∃ s, Label.publish c.br.readyBuf s ∈ tr ∧ m = some s) := by
  cases hs with
  | getSnap buf =>
      refine ⟨rfl, ?_⟩
      rcases reach_readyPair hr with ⟨h1, h2⟩ | ⟨s, hm, hs2⟩
      · exact Or.inl ⟨h1, h2⟩
      · exact Or.inr ⟨s, hm, hs2⟩

/-- C1 (witness): concrete instance at `publishedCfgU`: a consumer with
buffer `[5]` observes `([5, 7], some ())`, and the published pair
`([7], ())` is the one recorded by the single `publish` event of the
trace. -/
theorem getSnapshot_pair_published_witness :
    [5, 7] = [5] ++ publishedCfgU.br.readyBuf ∧
      ((publishedCfgU.br.readyBuf = [] ∧ (some () : Option Unit) = none) ∨
        ∃ s, Label.publish publishedCfgU.br.readyBuf s ∈ publishedTraceU ∧
          (some () : Option Unit) = some s) :=
  getSnapshot_pair_published_or_initial reach_publishedCfgU
    (Step.getSnap publishedCfgU [5])

/-- C9: while the trace contains no `publish` event — in particular on a
freshly constructed reader, and after `start` but before the first pass
completes — the ready buffer is empty and the published mapping is still
`nil`, so `getWalkedProcPid` appends zero bytes to the caller's buffer and
returns `nil`. -/
theorem no_publish_getSnapshot_empty {M : Type} {c : Config M}
    {tr : List (Label M)} (hr : Reach c tr)
    (hnp : ∀ (b : List Nat) (s : M), Label.publish b s ∉ tr) :
    c.br.readyBuf = [] ∧ c.br.readySockets = none ∧
      ∀ buf : List Nat, getWalkedProcPid c.br buf = (buf, none) := by
  rcases reach_readyPair hr with ⟨h1, h2⟩ | ⟨s, hm, _⟩
  · exact ⟨h1, h2, fun buf => by simp [getWalkedProcPid, h1, h2]⟩
  · exact absurd hm (hnp _ s)

/-- C9 (witness): concrete instance right after `start`, before any pass. -/
theorem no_publish_getSnapshot_empty_witness :
    startedCfgU.br.readyBuf = [] ∧ startedCfgU.br.readySockets = none ∧
      ∀ buf : List Nat, getWalkedProcPid startedCfgU.br buf = (buf, none) :=
  no_publish_getSnapshot_empty (Reach.step Reach.init (Step.startOk _ rfl))
    (fun b s hmem => by simp at hmem)

/-- C10: a `getWalkedProcPid` transition leaves the whole configuration --
ready buffer, walking buffer, published mapping, flags -- unchanged, and
its result extends the caller's buffer with the ready bytes without
truncating the caller's existing contents. -/
theorem getSnapshot_frame {M : Type} {c : Config M} {buf out : List Nat}
    {m : Option M} {c' : Config M}
    (hs : Step c (Label.getSnap buf out m) c') :
    c' = c ∧ out = buf ++ c.br.readyBuf ∧ m = c.br.readySockets ∧
      getWalkedProcPid c.br buf = (out, m) := by
  cases hs with
  | getSnap buf => exact ⟨rfl, rfl, rfl, rfl⟩

/-- C10 (witness): concrete instance at `publishedCfgU` with caller
buffer `[9]`. -/
theorem getSnapshot_frame_witness :
    publishedCfgU = publishedCfgU ∧
      [9] ++ publishedCfgU.br.readyBuf = [9] ++ publishedCfgU.br.readyBuf ∧
      publishedCfgU.br.readySockets = publishedCfgU.br.readySockets ∧
      getWalkedProcPid publishedCfgU.br [9] =
        ([9] ++ publishedCfgU.br.readyBuf, publishedCfgU.br.readySockets) :=
  getSnapshot_frame (Step.getSnap publishedCfgU [9])

/-- C5: when the walker fails, the loop publishes nothing: the ready buffer
and the published mapping are exactly as before the failed pass, the
lifecycle flags are untouched, and the loop stays at the top of the scan
loop (`continue`) — it never exits because of an enumeration failure. -/
theorem walk_failure_preserves_snapshot {M : Type} {c : Config M}
    {bs : List Nat} {c' : Config M} (hs : Step c (Label.walkFail bs) c') :
    c'.br.readyBuf = c.br.readyBuf ∧
      c'.br.readySockets = c.br.readySockets ∧
      c'.pc = PC.scanning ∧
      c'.br.running = c.br.running ∧
      c'.br.pleaseStop = c.br.pleaseStop := by
  cases hs with
  | walkFail bs h => exact ⟨rfl, rfl, rfl, rfl, rfl⟩

/-- C5 (witness): concrete failed walk appending `[3]` right after
`start`. -/
theorem walk_failure_preserves_snapshot_witness :
    (⟨⟨true, false, [3], [], none⟩, .scanning,
        initialRateLimitPeriodQ⟩ : Config Unit).br.readyBuf =
        startedCfgU.br.readyBuf ∧
      (⟨⟨true, false, [3], [], none⟩, .scanning,
          initialRateLimitPeriodQ⟩ : Config Unit).br.readySockets =
        startedCfgU.br.readySockets ∧
      (⟨⟨true, false, [3], [], none⟩, .scanning,
          initialRateLimitPeriodQ⟩ : Config Unit).pc = PC.scanning ∧
      (⟨⟨true, false, [3], [], none⟩, .scanning,
          initialRateLimitPeriodQ⟩ : Config Unit).br.running =
        startedCfgU.br.running ∧
      (⟨⟨true, false, [3], [], none⟩, .scanning,
          initialRateLimitPeriodQ⟩ : Config Unit).br.pleaseStop =
        startedCfgU.br.pleaseStop :=
  walk_failure_preserves_snapshot (Step.walkFail startedCfgU [3] rfl)

/-- C8: (i) a failed walker invocation leaves the walking buffer holding its
previous contents plus whatever bytes the failed attempt appended, and the
loop returns to `scanning`, so the next `walkProcPid` call receives that
un-reset buffer; (ii) the walking-buffer reset to empty happens only on the
post-publish path: the `adaptReset` transition requires the loop to be past
a successful publication (`resetting`). -/
theorem walk_failure_keeps_walking_buffer {M : Type} :
    (∀ (c : Config M) (bs : List Nat) (c' : Config M),
        Step c (Label.walkFail bs) c' →
          c'.br.walkingBuf = c.br.walkingBuf ++ bs ∧ c'.pc = PC.scanning) ∧
      ∀ (c : Config M) (e : ℚ) (c' : Config M),
        Step c (Label.adaptReset e) c' →
          c'.br.walkingBuf = [] ∧ c.pc = PC.resetting := by
  constructor
  · intro c bs c' hs
    cases hs with
    | walkFail bs h => exact ⟨rfl, rfl⟩
  · intro c e c' hs
    cases hs with
    | adaptReset e h he => exact ⟨rfl, h⟩

/-- C8 (witness): a concrete failed walk appending `[3]` after `start`
leaves `[3]` in the walking buffer, and a concrete post-publish reset at
`publishedCfgU` empties it. -/
theorem walk_failure_keeps_walking_buffer_witness :
    ((⟨⟨true, false, [3], [], none⟩, .scanning,
          initialRateLimitPeriodQ⟩ : Config Unit).br.walkingBuf =
        startedCfgU.br.walkingBuf ++ [3] ∧
      (⟨⟨true, false, [3], [], none⟩, .scanning,
          initialRateLimitPeriodQ⟩ : Config Unit).pc = PC.scanning) ∧
      ((⟨⟨true, false, [], [7], some ()⟩, .scanning,
            nextRateLimitPeriod publishedCfgU.period 0⟩ : Config Unit).br.walkingBuf =
          [] ∧
        publishedCfgU.pc = PC.resetting) :=
  ⟨(walk_failure_keeps_walking_buffer (M := Unit)).1 startedCfgU [3] _
      (Step.walkFail startedCfgU [3] rfl),
    (walk_failure_keeps_walking_buffer (M := Unit)).2 publishedCfgU 0 _
      (Step.adaptReset publishedCfgU 0 rfl le_rfl)⟩

/-- C4 (counterexample): `stop` followed immediately by `stop` does not
return the NotRunning error: after `start`, the first `stop` only sets
`pleaseStop` and leaves `running` true (the loop clears it later), so the
second `stop` also succeeds. -/
theorem double_stop_second_succeeds :
    (stop (stop ((start (newBackgroundReader Unit)).2)).2).1 =
        Except.ok () ∧
      (stop (stop ((start (newBackgroundReader Unit)).2)).2).1 ≠
        Except.error notRunningMsg := by
  constructor
  · rfl
  · intro h
    simp [start, stop, newBackgroundReader] at h

/-- C4 (amended): `start` after a successful `start` fails with
AlreadyRunning and leaves the state unchanged; `stop` while not running —
in particular after the loop has observed a requested stop and exited —
fails with NotRunning and leaves the state unchanged; `start` while running
fails with AlreadyRunning and leaves the state unchanged; but a second
`stop` issued before the loop has observed the first one succeeds (it
merely re-requests the stop). -/
theorem lifecycle_misuse_errors {M : Type} :
    (∀ br : BackgroundReader M, (start br).1 = Except.ok () →
        start (start br).2 = (Except.error alreadyRunningMsg, (start br).2)) ∧
      (∀ br : BackgroundReader M, br.running = false →
        stop br = (Except.error notRunningMsg, br)) ∧
      (∀ c c' : Config M, Step c Label.exitLoop c' →
        stop c'.br = (Except.error notRunningMsg, c'.br) ∧
          (start c'.br).1 = Except.ok ()) ∧
      (∀ br : BackgroundReader M, br.running = true →
        start br = (Except.error alreadyRunningMsg, br)) ∧
      ∀ br : BackgroundReader M, (stop br).1 = Except.ok () →
        (stop (stop br).2).1 = Except.ok () := by
  refine ⟨?_, ?_, ?_, ?_, ?_⟩
  · intro br h
    by_cases hr : br.running
    · simp [start, hr] at h
    · simp [start, hr]
  · intro br h
    simp [stop, h]
  · intro c c' hs
    cases hs with
    | exitLoop s h hstop => exact ⟨by simp [stop], by simp [start]⟩
  · intro br h
    simp [start, h]
  · intro br h
    by_cases hr : br.running
    · simp [stop, hr]
    · simp [stop, hr] at h

/-- C4 (witness): concrete instances on a fresh reader: start-start fails
AlreadyRunning; stop on the fresh (not-running) reader fails NotRunning;
after the loop exits from a stop request the next stop fails NotRunning and
start succeeds; a second immediate stop succeeds. -/
theorem lifecycle_misuse_errors_witness :
    start (start (newBackgroundReader Unit)).2 =
        (Except.error alreadyRunningMsg, (start (newBackgroundReader Unit)).2) ∧
      stop (newBackgroundReader Unit) =
        (Except.error notRunningMsg, newBackgroundReader Unit) ∧
      (stop (⟨⟨false, false, [], [], none⟩, .idle,
            initialRateLimitPeriodQ⟩ : Config Unit).br =
          (Except.error notRunningMsg,
            (⟨⟨false, false, [], [], none⟩, .idle,
              initialRateLimitPeriodQ⟩ : Config Unit).br) ∧
        (start (⟨⟨false, false, [], [], none⟩, .idle,
            initialRateLimitPeriodQ⟩ : Config Unit).br).1 = Except.ok ()) ∧
      (stop (stop (startedCfgU.br)).2).1 = Except.ok () :=
  ⟨(lifecycle_misuse_errors (M := Unit)).1 (newBackgroundReader Unit) rfl,
    (lifecycle_misuse_errors (M := Unit)).2.1 (newBackgroundReader Unit) rfl,
    (lifecycle_misuse_errors (M := Unit)).2.2.1
      (⟨⟨true, true, [], [], none⟩, .publishing (),
        initialRateLimitPeriodQ⟩ : Config Unit) _
      (Step.exitLoop _ () rfl rfl),
    (lifecycle_misuse_errors (M := Unit)).2.2.2.2 startedCfgU.br rfl⟩

/-- The constants are positive. -/
theorem targetWalkTimeQ_pos : 0 < targetWalkTimeQ := by
  norm_num [targetWalkTimeQ, secondQ]

/-- The maximum period constant is positive. -/
theorem maxRateLimitPeriodQ_pos : 0 < maxRateLimitPeriodQ := by
  norm_num [maxRateLimitPeriodQ, millisecondQ]

/-- The recomputed period is positive and at most the maximum, whenever the
current period is positive and the measured elapsed time nonnegative. -/
theorem nextRateLimitPeriod_pos_le {p e : ℚ} (hp : 0 < p) (he : 0 ≤ e) :
    0 < nextRateLimitPeriod p e ∧
      nextRateLimitPeriod p e ≤ maxRateLimitPeriodQ := by
  unfold nextRateLimitPeriod nextRateLimitPeriodGen
  rcases eq_or_lt_of_le he with h0 | hpos
  · simp [← h0, maxRateLimitPeriodQ_pos]
  · rw [if_neg hpos.ne.symm]
    exact ⟨lt_min (mul_pos (div_pos targetWalkTimeQ_pos hpos) hp)
        maxRateLimitPeriodQ_pos,
      min_le_right _ _⟩

/-- C2: the `adaptReset` transition of the loop updates the rate-limit
period with `nextRateLimitPeriod`; for every positive measured elapsed time
`e` and any current period `p` that value is
`min(maxRateLimitPeriod, p * targetWalkTime / e)`; and in the spec's
end-to-end example (target 10 units, max 25 units, current 5 units, elapsed
20 units) the next period is `2.5` units and the overrun warning fires
because `20 / 10 = 2 > 1.5`. -/
theorem rate_limit_feedback_law {M : Type} (p e : ℚ) (he : 0 < e) :
    (∀ (c : Config M) (d : ℚ) (c' : Config M),
        Step c (Label.adaptReset d) c' →
          c'.period = nextRateLimitPeriod c.period d) ∧
      nextRateLimitPeriod p e =
        min maxRateLimitPeriodQ (p * targetWalkTimeQ / e) ∧
      nextRateLimitPeriodGen 10 25 5 20 = 5 / 2 ∧
      passOverrunWarning 20 10 = true := by
  refine ⟨?_, ?_, by norm_num [nextRateLimitPeriodGen, min_def],
    by norm_num [passOverrunWarning]⟩
  · intro c d c' hs
    cases hs with
    | adaptReset d h hd => rfl
  · unfold nextRateLimitPeriod nextRateLimitPeriodGen
    rw [if_neg he.ne.symm, min_comm]
    congr 1
    ring

/-- C2 (witness): concrete instance at current period 5 and elapsed 20
(with the source constants in the general formula). -/
theorem rate_limit_feedback_law_witness :
    (∀ (c : Config Unit) (d : ℚ) (c' : Config Unit),
        Step c (Label.adaptReset d) c' →
          c'.period = nextRateLimitPeriod c.period d) ∧
      nextRateLimitPeriod 5 20 =
        min maxRateLimitPeriodQ (5 * targetWalkTimeQ / 20) ∧
      nextRateLimitPeriodGen 10 25 5 20 = 5 / 2 ∧
      passOverrunWarning 20 10 = true :=
  rate_limit_feedback_law (M := Unit) 5 20 (by norm_num)

/-- C3 (counterexample): the recomputed period is not floored at the
configured initial period: a pass taking four times the target walk time
shrinks the period from `initialRateLimitPeriod` (50ms) to 12.5ms, strictly
below the claimed lower bound. -/
theorem rate_limit_period_below_initial :
    ¬ initialRateLimitPeriodQ ≤
        nextRateLimitPeriod initialRateLimitPeriodQ (4 * targetWalkTimeQ) := by
  norm_num [nextRateLimitPeriod, nextRateLimitPeriodGen,
    initialRateLimitPeriodQ, targetWalkTimeQ, maxRateLimitPeriodQ,
    millisecondQ, secondQ]

/-- C3 (amended): after every Adapting step from a positive current period,
the new rate-limit period is positive and bounded above by
`maxRateLimitPeriod`; the configured initial period is not a lower bound. -/
theorem adapt_step_period_bounds {M : Type} {c : Config M} {e : ℚ}
    {c' : Config M} (hs : Step c (Label.adaptReset e) c')
    (hp : 0 < c.period) :
    0 < c'.period ∧ c'.period ≤ maxRateLimitPeriodQ := by
  cases hs with
  | adaptReset e h he => exact nextRateLimitPeriod_pos_le hp he

/-- C3 (witness): concrete Adapting step at `publishedCfgU` with measured
elapsed time 0. -/
theorem adapt_step_period_bounds_witness :
    0 < (⟨⟨true, false, [], [7], some ()⟩, .scanning,
        nextRateLimitPeriod publishedCfgU.period 0⟩ : Config Unit).period ∧
      (⟨⟨true, false, [], [7], some ()⟩, .scanning,
          nextRateLimitPeriod publishedCfgU.period 0⟩ : Config Unit).period ≤
        maxRateLimitPeriodQ :=
  adapt_step_period_bounds (Step.adaptReset publishedCfgU 0 rfl le_rfl)
    (by norm_num [publishedCfgU, initialRateLimitPeriodQ, millisecondQ])

/-- C6: when the measured elapsed time is zero, the float computation
produces `+∞ = targetWalkTimeF / 0` scaled by the positive current period,
`math.Min(+∞, max)` returns the maximum, and so the next period is exactly
the configured maximum — a finite value (not NaN or an infinity) that is
positive, hence not negative. -/
theorem zero_elapsed_yields_max_period (p : ℚ) (hp : 0 < p) :
    nextRateLimitPeriodF targetWalkTimeQ maxRateLimitPeriodQ p 0 =
        FVal.fin maxRateLimitPeriodQ ∧
      nextRateLimitPeriod p 0 = maxRateLimitPeriodQ ∧
      0 < maxRateLimitPeriodQ := by
  refine ⟨?_, by simp [nextRateLimitPeriod, nextRateLimitPeriodGen],
    maxRateLimitPeriodQ_pos⟩
  rw [nextRateLimitPeriodF_eq_fin _ _ _ _ targetWalkTimeQ_pos hp le_rfl]
  simp [nextRateLimitPeriodGen]

/-- C6 (witness): concrete instance at current period
`initialRateLimitPeriod`. -/
theorem zero_elapsed_yields_max_period_witness :
    nextRateLimitPeriodF targetWalkTimeQ maxRateLimitPeriodQ
        initialRateLimitPeriodQ 0 = FVal.fin maxRateLimitPeriodQ ∧
      nextRateLimitPeriod initialRateLimitPeriodQ 0 = maxRateLimitPeriodQ ∧
      0 < maxRateLimitPeriodQ :=
  zero_elapsed_yields_max_period initialRateLimitPeriodQ
    (by norm_num [initialRateLimitPeriodQ, millisecondQ])

/-- The configuration produced by the loop's stop check: both flags cleared
atomically, loop gone. -/
def exitCfg {M : Type} (c : Config M) : Config M :=
  ⟨{ c.br with pleaseStop := false, running := false }, .idle, c.period⟩

/-- Rank of a loop control point: the number of loop transitions (not
counting failed-walk retries) still separating it from the next stop
check. -/
def pcRank {M : Type} : PC M → Nat
  | .idle => 0
  | .publishing _ => 0
  | .scanning => 1
  | .resetting => 2

/-- Whether a label belongs to the scan-loop goroutine (as opposed to a
lifecycle call or a consumer call). -/
def isLoopLabel {M : Type} : Label M → Bool
  | .walkFail _ => true
  | .walkOk _ _ => true
  | .publish _ _ => true
  | .exitLoop => true
  | .adaptReset _ => true
  | _ => false

/-- C7: after a successful `stop` request (`pleaseStop` set):
(i) at the stop check of the Publishing step the loop exits, atomically
clearing `running` and `pleaseStop`, and a `start` on the resulting state
succeeds;
(ii) no pass is published while the stop request is pending;
(iii) every loop transition while the stop request is pending is the exit
itself, a failed-walk retry, or strictly decreases the remaining distance
`pcRank` to the next stop check — so at most one further in-flight pass
runs before the exit;
(iv) at the stop check the exit is the only loop transition possible;
(v) from any stopped state (not running, no pending request) `start`
spawns a loop that can complete a pass and publish a new snapshot. -/
theorem stop_observed_loop_exits {M : Type} :
    (∀ (c : Config M) (s : M), c.pc = PC.publishing s →
        c.br.pleaseStop = true →
          Step c Label.exitLoop (exitCfg c) ∧
            (exitCfg c).br.running = false ∧
            (exitCfg c).br.pleaseStop = false ∧
            (exitCfg c).pc = PC.idle ∧
            (start (exitCfg c).br).1 = Except.ok ()) ∧
      (∀ (c : Config M) (b : List Nat) (s : M) (c' : Config M),
        c.br.pleaseStop = true → ¬ Step c (Label.publish b s) c') ∧
      (∀ (c : Config M) (l : Label M) (c' : Config M),
        c.br.pleaseStop = true → Step c l c' → isLoopLabel l = true →
          l = Label.exitLoop ∨ (∃ bs, l = Label.walkFail bs) ∨
            pcRank c'.pc < pcRank c.pc) ∧
      (∀ (c : Config M) (s : M), c.pc = PC.publishing s →
        c.br.pleaseStop = true →
          ∀ (l : Label M) (c' : Config M), Step c l c' →
            isLoopLabel l = true → l = Label.exitLoop) ∧
      ∀ c : Config M, c.br.running = false → c.br.pleaseStop = false →
        ∀ (bs : List Nat) (s : M), ∃ c1 c2 c3 : Config M,
          Step c Label.startOk c1 ∧ Step c1 (Label.walkOk bs s) c2 ∧
            Step c2 (Label.publish (c.br.walkingBuf ++ bs) s) c3 ∧
            c3.br.readyBuf = c.br.walkingBuf ++ bs ∧
            c3.br.readySockets = some s := by
  refine ⟨?_, ?_, ?_, ?_, ?_⟩
  · intro c s h hstop
    exact ⟨Step.exitLoop c s h hstop, rfl, rfl, rfl, by simp [start, exitCfg]⟩
  · intro c b s c' hstop hs
    cases hs with
    | publish s h hstop2 => rw [hstop] at hstop2; exact Bool.noConfusion hstop2
  · intro c l c' hstop hs hloop
    cases hs with
    | walkFail bs h => exact Or.inr (Or.inl ⟨bs, rfl⟩)
    | walkOk bs s h => exact Or.inr (Or.inr (by simp [pcRank, h]))
    | publish s h hstop2 => rw [hstop] at hstop2; exact Bool.noConfusion hstop2
    | exitLoop s h hstop2 => exact Or.inl rfl
    | adaptReset e h he => exact Or.inr (Or.inr (by simp [pcRank, h]))
    | startOk h => exact Bool.noConfusion hloop
    | startErr h => exact Bool.noConfusion hloop
    | stopOk h => exact Bool.noConfusion hloop
    | stopErr h => exact Bool.noConfusion hloop
    | getSnap buf => exact Bool.noConfusion hloop
  · intro c s h hstop l c' hs hloop
    cases hs with
    | walkFail bs h2 => rw [h] at h2; exact PC.noConfusion h2
    | walkOk bs s2 h2 => rw [h] at h2; exact PC.noConfusion h2
    | publish s2 h2 hstop2 => rw [hstop] at hstop2; exact Bool.noConfusion hstop2
    | exitLoop s2 h2 hstop2 => rfl
    | adaptReset e h2 he => rw [h] at h2; exact PC.noConfusion h2
    | startOk h2 => exact Bool.noConfusion hloop
    | startErr h2 => exact Bool.noConfusion hloop
    | stopOk h2 => exact Bool.noConfusion hloop
    | stopErr h2 => exact Bool.noConfusion hloop
    | getSnap buf => exact Bool.noConfusion hloop
  · intro c hrun hstop bs s
    refine ⟨⟨{ c.br with running := true }, .scanning, initialRateLimitPeriodQ⟩,
      ⟨⟨true, c.br.pleaseStop, c.br.walkingBuf ++ bs, c.br.readyBuf,
          c.br.readySockets⟩, .publishing s, initialRateLimitPeriodQ⟩,
      ⟨⟨true, c.br.pleaseStop, c.br.readyBuf, c.br.walkingBuf ++ bs, some s⟩,
        .resetting, initialRateLimitPeriodQ⟩,
      Step.startOk c hrun, ?_, ?_, rfl, rfl⟩
    · have h1 := Step.walkOk
        (⟨{ c.br with running := true }, .scanning, initialRateLimitPeriodQ⟩ :
          Config M) bs s rfl
      exact h1
    · have h2 := Step.publish
        (⟨⟨true, c.br.pleaseStop, c.br.walkingBuf ++ bs, c.br.readyBuf,
            c.br.readySockets⟩, .publishing s, initialRateLimitPeriodQ⟩ :
          Config M) s rfl (by simpa using hstop)
      simpa using h2

/-- C7 (witness): concrete instances: at a configuration whose loop sits at
the stop check with a pending request, the exit step applies and a restart
succeeds; and from the exited configuration the restarted loop completes a
pass publishing `([4], ())`. -/
theorem stop_observed_loop_exits_witness :
    (Step (⟨⟨true, true, [], [], none⟩, .publishing (),
          initialRateLimitPeriodQ⟩ : Config Unit) Label.exitLoop
        (exitCfg ⟨⟨true, true, [], [], none⟩, .publishing (),
          initialRateLimitPeriodQ⟩) ∧
      (exitCfg (⟨⟨true, true, [], [], none⟩, .publishing (),
          initialRateLimitPeriodQ⟩ : Config Unit)).br.running = false ∧
      (exitCfg (⟨⟨true, true, [], [], none⟩, .publishing (),
          initialRateLimitPeriodQ⟩ : Config Unit)).br.pleaseStop = false ∧
      (exitCfg (⟨⟨true, true, [], [], none⟩, .publishing (),
          initialRateLimitPeriodQ⟩ : Config Unit)).pc = PC.idle ∧
      (start (exitCfg (⟨⟨true, true, [], [], none⟩, .publishing (),
          initialRateLimitPeriodQ⟩ : Config Unit)).br).1 = Except.ok ()) ∧
      ∃ c1 c2 c3 : Config Unit,
        Step (⟨⟨false, false, [], [], none⟩, .idle,
            initialRateLimitPeriodQ⟩ : Config Unit) Label.startOk c1 ∧
          Step c1 (Label.walkOk [4] ()) c2 ∧
          Step c2 (Label.publish ([] ++ [4]) ()) c3 ∧
          c3.br.readyBuf = [] ++ [4] ∧ c3.br.readySockets = some () :=
  ⟨(stop_observed_loop_exits (M := Unit)).1
      (⟨⟨true, true, [], [], none⟩, .publishing (),
        initialRateLimitPeriodQ⟩ : Config Unit) () rfl rfl,
    (stop_observed_loop_exits (M := Unit)).2.2.2.2
      (⟨⟨false, false, [], [], none⟩, .idle,
        initialRateLimitPeriodQ⟩ : Config Unit) rfl rfl [4] ()⟩
